import Mathlib

/-!
# Verification of the emyl streaming engine (src/emyl.cpp, src/emyl.h)

Shallow embedding of the parts of the library the claims are about:

* the `Stream` control surface (`Stream::play`, `Stream::pause`, `Stream::stop`,
  `Stream::getState`, `Stream::setPlayingOffset`, `Stream::initialize`,
  emyl.cpp lines 1704-1890);
* the worker-side refill algorithm (`Stream::fillAndPushBuffer`, lines 2029-2073)
  and the dequeued-buffer handling of `Stream::streamData` (lines 1956-2000);
* the lock discipline on `m_isStreaming` / `m_threadStartState` (transcribed as a
  table of access sites);
* `MemoryInputStream` (lines 1167-1231).

Machine integers are modelled as `Nat`/`Int`; the only places where wrap-around
is reachable in the modelled scenarios carry an explicit `% 2 ^ 64`
(`m_samplesProcessed += ...` is `std::uint64_t` arithmetic) or `Int.bmod`
(`std::size_t` to `std::int64_t` conversion).  `float` time offsets are
modelled as exact rationals.  Side effects (OpenAL calls, thread spawn/join,
decoder seeks, warnings) are instrumented as an explicit list of `Action`s so
that ordering claims can be stated.
-/

namespace Emyl

/-- Playback state of a source, `Source::State` (emyl.h): Stopped, Paused or
Playing. -/
inductive SourceState where
  | Stopped
  | Paused
  | Playing
deriving DecidableEq, Repr

/-- Observable side effects of the engine, in program order.  Each constructor
corresponds to one effectful statement of the C++ source: assignments to the
shared fields, `onSeek`, `m_samplesProcessed` assignments, OpenAL voice calls,
thread spawn/join and warnings. -/
inductive Action where
  | warnNotInit
  | warnUnsupported
  | warnBits
  | setStreaming (b : Bool)
  | setStartState (st : SourceState)
  | joinThread
  | seek (t : Rat)
  | setSamples (n : Nat)
  | voicePlay
  | voicePause
  | spawn (st : SourceState)
  | bufferData (slot : Fin 3) (sizeBytes : Nat) (format : Nat) (rate : Nat)
  | enqueue (slot : Fin 3)
deriving DecidableEq, Repr

/-- State of one `Stream` object (emyl.h lines 495-509) together with the
environment the control thread can observe.

Fields `threadStartState`, `isStreaming`, `channelCount`, `sampleRate`,
`format`, `loop`, `samplesProcessed`, `endBuffers` are the members
`m_threadStartState`, `m_isStreaming`, `m_channelCount`, `m_sampleRate`,
`m_format`, `m_loop`, `m_samplesProcessed`, `m_endBuffers` of the C++ class.

`workerCount` counts the worker threads currently alive (`m_thread`'s thread of
execution); `joinable` is `m_thread.joinable()`; `voiceState` is the hardware
voice state reported by `Source::getState()` (driven by the `alSourcePlay` /
`alSourcePause` / `alSourceStop` calls of the source); `sourceTime` is the seek
position of the chunk source in seconds, as set by `onSeek`
(`Music::onSeek` forwards to `m_file.seek(timeOffset)`). -/
structure Stream where
  threadStartState : SourceState
  isStreaming : Bool
  channelCount : Nat
  sampleRate : Nat
  format : Nat
  loop : Bool
  samplesProcessed : Nat
  endBuffers : Fin 3 → Bool
  workerCount : Nat
  joinable : Bool
  voiceState : SourceState
  sourceTime : Rat

/-- `Stream::Stream()` (emyl.cpp 1669-1683): all members zeroed, no thread. -/
def Stream.mkInit : Stream where
  threadStartState := SourceState.Stopped
  isStreaming := false
  channelCount := 0
  sampleRate := 0
  format := 0
  loop := false
  samplesProcessed := 0
  endBuffers := fun _ => false
  workerCount := 0
  joinable := false
  voiceState := SourceState.Stopped
  sourceTime := 0

/-- `internal::Device::getFormatFromChannelCount` (emyl.cpp 272-300).
`AL_FORMAT_MONO16 = 0x1101 = 4353`, `AL_FORMAT_STEREO16 = 0x1103 = 4355`;
the 4/6/7/8-channel formats are looked up at run time with `alGetEnumValue`,
modelled by the oracle `env`; a `-1` result is fixed up to `0`. -/
def Device.getFormatFromChannelCount (env : Nat → Int) (channelCount : Nat) : Int :=
  let format : Int :=
    match channelCount with
    | 1 => 4353
    | 2 => 4355
    | 4 => env 4
    | 6 => env 6
    | 7 => env 7
    | 8 => env 8
    | _ => 0
  if format = -1 then 0 else format

/-- `Stream::initialize(channelCount, sampleRate)` (emyl.cpp 1704-1719):
stores channel count and rate, derives `m_format` (a `std::uint32_t`, hence the
`% 2 ^ 32` on the `int` result), and on an unsupported layout clears channel
count and rate to `0` and warns. -/
def Stream.initializeStream (env : Nat → Int) (s : Stream)
    (channelCount sampleRate : Nat) : Stream × List Action :=
  let fmt : Nat := ((Device.getFormatFromChannelCount env channelCount) % (2 ^ 32)).toNat
  let s1 : Stream := { s with channelCount := channelCount, sampleRate := sampleRate,
                              format := fmt }
  if fmt = 0 then
    ({ s1 with channelCount := 0, sampleRate := 0 }, [Action.warnUnsupported])
  else
    (s1, [])

/-- `Stream::stop()` (emyl.cpp 1786-1803): under the mutex set
`m_isStreaming = false`; join the thread if joinable (a joined live worker runs
its cleanup, `alSourceStop` included, before `join` returns); then `onSeek(0)`
and `m_samplesProcessed = 0`. -/
def Stream.stop (s : Stream) : Stream × List Action :=
  let s1 : Stream := { s with isStreaming := false }
  let joined : Stream × List Action :=
    if s1.joinable then
      ({ s1 with workerCount := s1.workerCount - 1
               , joinable := false
               , voiceState := if s1.workerCount = 1 then SourceState.Stopped
                               else s1.voiceState },
       [Action.joinThread])
    else
      (s1, [])
  let s2 : Stream := { joined.1 with sourceTime := 0 }
  let s3 : Stream := { s2 with samplesProcessed := 0 }
  (s3, Action.setStreaming false :: joined.2 ++ [Action.seek 0, Action.setSamples 0])

/-- `Stream::play()` (emyl.cpp 1723-1765): fails with a warning when
`m_format == 0`; resumes in place when streaming and paused; when streaming and
playing, calls `stop()` and falls through; the fresh start is
`onSeek(0); m_samplesProcessed = 0; m_isStreaming = true;
m_threadStartState = Playing; m_thread = std::thread(...)`. -/
def Stream.play (s : Stream) : Stream × List Action :=
  if s.format = 0 then
    (s, [Action.warnNotInit])
  else if s.isStreaming = true ∧ s.threadStartState = SourceState.Paused then
    ({ s with threadStartState := SourceState.Playing, voiceState := SourceState.Playing },
     [Action.setStartState SourceState.Playing, Action.voicePlay])
  else
    let stopped : Stream × List Action :=
      if s.isStreaming = true ∧ s.threadStartState = SourceState.Playing then
        s.stop
      else
        (s, [])
    let s1 : Stream := { stopped.1 with sourceTime := 0 }
    let s2 : Stream := { s1 with samplesProcessed := 0
                               , isStreaming := true
                               , threadStartState := SourceState.Playing
                               , workerCount := s1.workerCount + 1
                               , joinable := true }
    (s2, stopped.2 ++ [Action.seek 0, Action.setSamples 0, Action.setStreaming true,
                       Action.setStartState SourceState.Playing,
                       Action.spawn SourceState.Playing])

/-- `Stream::pause()` (emyl.cpp 1769-1782): returns at once when not streaming;
otherwise sets `m_threadStartState = Paused` under the mutex and calls
`alSourcePause` (which moves a Playing voice to Paused and leaves any other
voice state unchanged). -/
def Stream.pause (s : Stream) : Stream × List Action :=
  if s.isStreaming = false then
    (s, [])
  else
    ({ s with threadStartState := SourceState.Paused
            , voiceState := if s.voiceState = SourceState.Playing then SourceState.Paused
                            else s.voiceState },
     [Action.setStartState SourceState.Paused, Action.voicePause])

/-- `Stream::getState()` (emyl.cpp 1821-1835): the hardware voice state, except
that a Stopped voice of a stream whose worker is active reports
`m_threadStartState` instead. -/
def Stream.getState (s : Stream) : SourceState :=
  if s.voiceState = SourceState.Stopped ∧ s.isStreaming = true then s.threadStartState
  else s.voiceState

/-- `static_cast<std::uint64_t>(timeOffset * m_sampleRate * m_channelCount)`
(emyl.cpp 1851), with the float product modelled as an exact rational and the
cast as truncation. -/
def samplesFromTime (t : Rat) (sampleRate channelCount : Nat) : Nat :=
  (⌊t * (sampleRate : Rat) * (channelCount : Rat)⌋).toNat

/-- `Stream::setPlayingOffset(timeOffset)` (emyl.cpp 1839-1859): capture
`getState()`, `stop()`, `onSeek(timeOffset)`, recompute `m_samplesProcessed`;
if the captured state was Stopped return, otherwise set `m_isStreaming = true`,
`m_threadStartState` to the captured state and spawn a fresh worker. -/
def Stream.setPlayingOffset (s : Stream) (t : Rat) : Stream × List Action :=
  let oldState : SourceState := s.getState
  let stopped : Stream × List Action := s.stop
  let s1 : Stream := { stopped.1 with sourceTime := t }
  let n : Nat := samplesFromTime t s1.sampleRate s1.channelCount
  let s2 : Stream := { s1 with samplesProcessed := n }
  if oldState = SourceState.Stopped then
    (s2, stopped.2 ++ [Action.seek t, Action.setSamples n])
  else
    ({ s2 with isStreaming := true
             , threadStartState := oldState
             , workerCount := s2.workerCount + 1
             , joinable := true },
     stopped.2 ++ [Action.seek t, Action.setSamples n, Action.setStreaming true,
                   Action.setStartState oldState, Action.spawn oldState])

/-- Operations the environment can perform on one `Stream`: the four control
calls, `Music::openFrom*` (which runs `stop()` then `Stream::initialize`,
emyl.cpp 2125-2216), `setLoop`, and the three asynchronous worker/hardware
events visible to the control thread: the worker reaching `alSourcePlay`
(emyl.cpp 1894-1926), the worker terminating on its own (emyl.cpp 2016-2025),
and the hardware voice draining its queue. -/
inductive Op where
  | play
  | pause
  | stop
  | setPlayingOffset (t : Rat)
  | openMusic (channelCount sampleRate : Nat)
  | setLoop (b : Bool)
  | workerStarted
  | workerExit
  | underrun

/-- One atomic step of the environment. `workerStarted` models the prologue of
`Stream::streamData` (exit at once when launched Stopped, otherwise
`alSourcePlay` followed by `alSourcePause` when launched Paused);
`workerExit` models the worker leaving its main loop on its own (it has set
`m_isStreaming = false` itself and runs `alSourceStop` on the way out);
`underrun` models the hardware voice running out of queued buffers. -/
def Stream.step (env : Nat → Int) (s : Stream) : Op → Stream
  | Op.play => (s.play).1
  | Op.pause => (s.pause).1
  | Op.stop => (s.stop).1
  | Op.setPlayingOffset t => (s.setPlayingOffset t).1
  | Op.openMusic c r => ((s.stop).1.initializeStream env c r).1
  | Op.setLoop b => { s with loop := b }
  | Op.workerStarted =>
      if s.workerCount = 1 then
        if s.threadStartState = SourceState.Stopped then
          { s with isStreaming := false, workerCount := 0 }
        else
          { s with voiceState := if s.threadStartState = SourceState.Paused
                                 then SourceState.Paused else SourceState.Playing }
      else s
  | Op.workerExit =>
      if s.workerCount = 1 then
        { s with isStreaming := false, workerCount := 0,
                 voiceState := SourceState.Stopped }
      else s
  | Op.underrun =>
      if s.voiceState = SourceState.Playing then
        { s with voiceState := SourceState.Stopped }
      else s

/-- Run a list of operations from a given state. -/
def Stream.runOps (env : Nat → Int) (s : Stream) : List Op → Stream
  | [] => s
  | op :: rest => Stream.runOps env (s.step env op) rest

/-- States of one `Stream` reachable from construction by control calls and
worker/hardware events. -/
def Stream.Reachable (env : Nat → Int) (s : Stream) : Prop :=
  ∃ L : List Op, Stream.runOps env Stream.mkInit L = s

/-- The engine invariant: at most one worker is alive; `m_isStreaming` holds
exactly when a worker is alive; a streaming engine is never in requested state
Stopped; a live worker's thread object is joinable; without a live worker the
hardware voice is stopped; an uninitialized stream (`m_format == 0`) is never
streaming. -/
def Stream.Inv (s : Stream) : Prop :=
  s.workerCount ≤ 1 ∧
  (s.isStreaming = true ↔ s.workerCount = 1) ∧
  (s.isStreaming = true → s.threadStartState ≠ SourceState.Stopped) ∧
  (s.workerCount = 1 → s.joinable = true) ∧
  (s.workerCount = 0 → s.voiceState = SourceState.Stopped) ∧
  (s.format = 0 → s.isStreaming = false)

/-- One response of the `onGetData` callback (`Music::onGetData`,
emyl.cpp 2183-2193): the returned `bool` (`ret`), whether `data.samples` was
set to a non-null pointer (`nonNull`), and `data.sampleCount` (`count`). -/
structure GetDataResult where
  ret : Bool
  nonNull : Bool
  count : Nat
deriving DecidableEq, Repr

/-- The device upload and enqueue at the end of `Stream::fillAndPushBuffer`
(emyl.cpp 2059-2070): executed only when `data.samples && data.sampleCount`;
uploads `sampleCount * sizeof(int16_t)` bytes at the engine's `m_format` and
`m_sampleRate` and queues the buffer on the voice. -/
def pushActions (s : Stream) (r : GetDataResult) (bufferNum : Fin 3) : List Action :=
  if r.nonNull = true ∧ r.count ≠ 0 then
    [Action.bufferData bufferNum (r.count * 2) s.format s.sampleRate,
     Action.enqueue bufferNum]
  else
    []

/-- `Stream::fillAndPushBuffer(bufferNum)` (emyl.cpp 2029-2073), driven by the
list of `onGetData` responses the chunk source will produce (one response per
`onGetData` call, consumed in order; `none` when the list runs out before the
procedure returns).  Returns the C++ return value `requestStop`, the new state
and the emitted effects. -/
def Stream.fillAndPushBuffer (s : Stream) (responses : List GetDataResult)
    (bufferNum : Fin 3) : Option (Bool × Stream × List Action) :=
  match responses with
  | [] => none
  | r :: rest =>
    if r.ret = true then
      some (false, s, pushActions s r bufferNum)
    else
      let s1 : Stream := { s with endBuffers := Function.update s.endBuffers bufferNum true }
      if s1.loop = true then
        let s2 : Stream := { s1 with sourceTime := 0 }
        if r.nonNull = false ∨ r.count = 0 then
          (Stream.fillAndPushBuffer s2 rest bufferNum).map
            (fun p => (p.1, p.2.1, Action.seek 0 :: p.2.2))
        else
          some (false, s2, Action.seek 0 :: pushActions s2 r bufferNum)
      else
        some (true, s1, pushActions s1 r bufferNum)

/-- One buffer dequeued with `alSourceUnqueueBuffers` in the main loop of
`Stream::streamData` (emyl.cpp 1956-1970): the ring slot it maps back to, its
`AL_SIZE` in bytes and its `AL_BITS` bit depth. -/
structure ProcessedBuffer where
  slot : Fin 3
  sizeBytes : Nat
  bits : Nat
deriving DecidableEq, Repr

/-- What the handling of one dequeued buffer did: reset `m_samplesProcessed`
at a loop boundary, advanced it by the buffer's sample count, or aborted the
stream on a zero bit depth (the C++ `break` out of the processing loop). -/
inductive DequeueOutcome where
  | reset
  | advanced (samples : Nat)
  | aborted
deriving DecidableEq, Repr

/-- Handling of one dequeued buffer in `Stream::streamData`
(emyl.cpp 1971-2000): a slot with its end-of-stream flag set resets
`m_samplesProcessed` to 0 and clears the flag; otherwise a zero `AL_BITS`
warns, sets `m_isStreaming = false` under the mutex, records `requestStop` and
breaks; otherwise `m_samplesProcessed += size / (bits / 8)` in `std::uint64_t`
arithmetic. -/
def Stream.handleDequeuedBuffer (s : Stream) (b : ProcessedBuffer) :
    Stream × DequeueOutcome × List Action :=
  if s.endBuffers b.slot = true then
    ({ s with samplesProcessed := 0
            , endBuffers := Function.update s.endBuffers b.slot false },
     DequeueOutcome.reset, [Action.setSamples 0])
  else if b.bits = 0 then
    ({ s with isStreaming := false },
     DequeueOutcome.aborted, [Action.warnBits, Action.setStreaming false])
  else
    let n : Nat := b.sizeBytes / (b.bits / 8)
    ({ s with samplesProcessed := (s.samplesProcessed + n) % 2 ^ 64 },
     DequeueOutcome.advanced n, [])

/-- The dequeue-handling part of the `while (nbProcessed--)` loop of
`Stream::streamData` applied to a list of processed buffers, also counting how
many of them reset `m_samplesProcessed`; an `aborted` outcome breaks out of
the loop, leaving the remaining buffers unprocessed. -/
def Stream.processDequeued (s : Stream) (bs : List ProcessedBuffer) : Stream × Nat :=
  match bs with
  | [] => (s, 0)
  | b :: rest =>
    match s.handleDequeuedBuffer b with
    | (s', DequeueOutcome.aborted, _) => (s', 0)
    | (s', DequeueOutcome.reset, _) =>
        ((Stream.processDequeued s' rest).1, (Stream.processDequeued s' rest).2 + 1)
    | (s', DequeueOutcome.advanced _, _) => Stream.processDequeued s' rest

/-- One recorded access to `m_isStreaming` or `m_threadStartState` in
emyl.cpp: in which member function, at which source line, which of the two
fields, whether it is a write, and whether a `std::lock_guard` on
`m_threadMutex` is held at that statement. -/
structure FieldAccess where
  fn : String
  line : Nat
  field : String
  isWrite : Bool
  underMutex : Bool
deriving DecidableEq, Repr

/-- Every access to `m_isStreaming` and `m_threadStartState` in emyl.cpp,
transcribed in source order: the destructor (1687-1700), `play` (1723-1765),
`pause` (1769-1782), `stop` (1786-1803), `getState` (1821-1835),
`setPlayingOffset` (1839-1859) and the worker `streamData` (1894-2025). -/
def sharedStateAccesses : List FieldAccess :=
  [ { fn := "Stream::~Stream", line := 1694, field := "m_isStreaming", isWrite := true, underMutex := true },
    { fn := "Stream::play", line := 1738, field := "m_isStreaming", isWrite := false, underMutex := true },
    { fn := "Stream::play", line := 1739, field := "m_threadStartState", isWrite := false, underMutex := true },
    { fn := "Stream::play", line := 1747, field := "m_threadStartState", isWrite := true, underMutex := true },
    { fn := "Stream::play", line := 1762, field := "m_isStreaming", isWrite := true, underMutex := false },
    { fn := "Stream::play", line := 1763, field := "m_threadStartState", isWrite := true, underMutex := false },
    { fn := "Stream::pause", line := 1775, field := "m_isStreaming", isWrite := false, underMutex := true },
    { fn := "Stream::pause", line := 1778, field := "m_threadStartState", isWrite := true, underMutex := true },
    { fn := "Stream::stop", line := 1791, field := "m_isStreaming", isWrite := true, underMutex := true },
    { fn := "Stream::getState", line := 1830, field := "m_isStreaming", isWrite := false, underMutex := true },
    { fn := "Stream::getState", line := 1831, field := "m_threadStartState", isWrite := false, underMutex := true },
    { fn := "Stream::setPlayingOffset", line := 1856, field := "m_isStreaming", isWrite := true, underMutex := false },
    { fn := "Stream::setPlayingOffset", line := 1857, field := "m_threadStartState", isWrite := true, underMutex := false },
    { fn := "Stream::streamData", line := 1902, field := "m_threadStartState", isWrite := false, underMutex := true },
    { fn := "Stream::streamData", line := 1904, field := "m_isStreaming", isWrite := true, underMutex := true },
    { fn := "Stream::streamData", line := 1924, field := "m_threadStartState", isWrite := false, underMutex := true },
    { fn := "Stream::streamData", line := 1932, field := "m_isStreaming", isWrite := false, underMutex := true },
    { fn := "Stream::streamData", line := 1948, field := "m_isStreaming", isWrite := true, underMutex := true },
    { fn := "Stream::streamData", line := 1992, field := "m_isStreaming", isWrite := true, underMutex := true } ]

/-- State of a `MemoryInputStream` (emyl.h 280-297): whether `m_data` is
non-null, and the `std::int64_t` members `m_size` and `m_offset`. -/
structure MemoryInputStream where
  dataPresent : Bool
  size : Int
  offset : Int
deriving DecidableEq, Repr

/-- `MemoryInputStream::MemoryInputStream()` (emyl.cpp 1167-1172). -/
def MemoryInputStream.mkInit : MemoryInputStream where
  dataPresent := false
  size := 0
  offset := 0

/-- Conversion of a non-negative integer to `std::int64_t` (two's complement
wrap-around at `2 ^ 64 = 18446744073709551616`, values at or above
`2 ^ 63 = 9223372036854775808` becoming negative). -/
def toInt64 (n : Nat) : Int :=
  if (n : Int) % 18446744073709551616 < 9223372036854775808 then
    (n : Int) % 18446744073709551616
  else
    (n : Int) % 18446744073709551616 - 18446744073709551616

/-- `MemoryInputStream::open(data, sizeInBytes)` (emyl.cpp 1176-1181):
`m_data = data; m_size = sizeInBytes; m_offset = 0`.  The `std::size_t` value
is converted to `std::int64_t` with `toInt64`. -/
def MemoryInputStream.openMem (dataNonNull : Bool) (sizeInBytes : Nat) :
    MemoryInputStream where
  dataPresent := dataNonNull
  size := toInt64 sizeInBytes
  offset := 0

/-- `MemoryInputStream::read(data, size)` (emyl.cpp 1185-1200): `-1` when no
data is open; otherwise `count` is `size` when `m_offset + size <= m_size` and
`m_size - m_offset` otherwise, the copy and the offset advance happen only
when `count > 0`, and `count` is returned. -/
def MemoryInputStream.read (m : MemoryInputStream) (size : Int) :
    Int × MemoryInputStream :=
  if m.dataPresent = false then
    (-1, m)
  else
    let endPosition : Int := m.offset + size
    let count : Int := if endPosition ≤ m.size then size else m.size - m.offset
    if 0 < count then
      (count, { m with offset := m.offset + count })
    else
      (count, m)

/-- `MemoryInputStream::seek(position)` (emyl.cpp 1204-1211): `-1` when no
data is open; otherwise clamps to `m_size` from above and returns the new
offset. -/
def MemoryInputStream.seek (m : MemoryInputStream) (position : Int) :
    Int × MemoryInputStream :=
  if m.dataPresent = false then
    (-1, m)
  else
    let o : Int := if position < m.size then position else m.size
    (o, { m with offset := o })

/-- `MemoryInputStream::tell()` (emyl.cpp 1215-1221). -/
def MemoryInputStream.tell (m : MemoryInputStream) : Int :=
  if m.dataPresent = false then -1 else m.offset

/-- `MemoryInputStream::getSize()` (emyl.cpp 1225-1231). -/
def MemoryInputStream.getSize (m : MemoryInputStream) : Int :=
  if m.dataPresent = false then -1 else m.size

/-- `true` when the first worker-lifecycle event in the trace (if any) is a
join rather than a spawn: every spawned worker was launched only after the
previous worker had been joined. -/
def joinBeforeSpawn : List Action → Bool
  | [] => true
  | Action.joinThread :: _ => true
  | Action.spawn _ :: _ => false
  | _ :: tr => joinBeforeSpawn tr

/-- Number of worker threads spawned by a trace. -/
def spawnCount (tr : List Action) : Nat :=
  tr.countP (fun a => match a with | Action.spawn _ => true | _ => false)

/-- The freshly constructed stream satisfies the engine invariant. -/
theorem Stream.inv_mkInit : Stream.Inv Stream.mkInit := by
  refine ⟨?_, ?_, ?_, ?_, ?_, ?_⟩ <;> simp [Stream.mkInit, Stream.Inv]

/-- Under the engine invariant, `stop()` always lands in the same state: not
streaming, no worker alive, thread not joinable, voice stopped, source back at
time 0 and `m_samplesProcessed == 0`, with the remaining fields untouched. -/
theorem Stream.stop_fst_of_inv (s : Stream) (h : Stream.Inv s) :
    (s.stop).1 = { s with isStreaming := false, workerCount := 0,
                          joinable := false, voiceState := SourceState.Stopped,
                          sourceTime := 0, samplesProcessed := 0 } := by
  obtain ⟨h1, _h2, _h3, h4, h5, _h6⟩ := h
  by_cases hj : s.joinable = true
  · by_cases hw : s.workerCount = 1
    · simp [Stream.stop, hj, hw]
    · have hw0 : s.workerCount = 0 := by omega
      have hv : s.voiceState = SourceState.Stopped := h5 hw0
      simp [Stream.stop, hj, hw, hw0, hv]
  · have hw0 : s.workerCount = 0 := by
      rcases Nat.lt_or_ge s.workerCount 1 with h | h
      · omega
      · have h' : s.workerCount = 1 := by omega
        exact absurd (h4 h') hj
    have hv : s.voiceState = SourceState.Stopped := h5 hw0
    simp [Stream.stop, hj, hw0, hv]

/-- Every environment step preserves the engine invariant. -/
theorem Stream.inv_step (env : Nat → Int) (s : Stream) (op : Op)
    (h : Stream.Inv s) : Stream.Inv (s.step env op) := by
  obtain ⟨h1, h2, h3, h4, h5, h6⟩ := h
  have hstop := Stream.stop_fst_of_inv s ⟨h1, h2, h3, h4, h5, h6⟩
  have hcount0 : s.isStreaming = false → s.workerCount = 0 := by
    intro hb
    rcases Nat.lt_or_ge s.workerCount 1 with hlt | hge
    · omega
    · have h' : s.workerCount = 1 := by omega
      simp [h2.mpr h'] at hb
  cases op with
  | play =>
      by_cases hf : s.format = 0
      · simpa [Stream.step, Stream.play, hf] using ⟨h1, h2, h3, h4, h5, h6⟩
      · by_cases hp : s.isStreaming = true ∧ s.threadStartState = SourceState.Paused
        · have hw : s.workerCount = 1 := h2.mp hp.1
          refine ⟨?_, ?_, ?_, ?_, ?_, ?_⟩ <;>
            simp [Stream.step, Stream.play, hf, hp, hw, hp.1, h4 hw]
        · by_cases hq : s.isStreaming = true ∧ s.threadStartState = SourceState.Playing
          · refine ⟨?_, ?_, ?_, ?_, ?_, ?_⟩ <;>
              simp [Stream.step, Stream.play, hf, hp, hq, hstop]
          · have hns : s.isStreaming = false := by
              by_cases hb : s.isStreaming = true
              · exfalso
                have := h3 hb
                cases hst : s.threadStartState with
                | Stopped => exact this hst
                | Paused => exact hp ⟨hb, hst⟩
                | Playing => exact hq ⟨hb, hst⟩
              · simpa using hb
            have hw : s.workerCount = 0 := hcount0 hns
            refine ⟨?_, ?_, ?_, ?_, ?_, ?_⟩ <;>
              simp [Stream.step, Stream.play, hf, hp, hq, hns, hw]
  | pause =>
      by_cases hb : s.isStreaming = false
      · simpa [Stream.step, Stream.pause, hb] using ⟨h1, h2, h3, h4, h5, h6⟩
      · have hb' : s.isStreaming = true := by simpa using hb
        have hw : s.workerCount = 1 := h2.mp hb'
        have hfmt : ¬ s.format = 0 := by
          intro hf0
          simp [h6 hf0] at hb'
        refine ⟨?_, ?_, ?_, ?_, ?_, ?_⟩ <;>
          simp [Stream.step, Stream.pause, hb, hb', hw, h4 hw, hfmt]
  | stop =>
      refine ⟨?_, ?_, ?_, ?_, ?_, ?_⟩ <;> simp [Stream.step, hstop]
  | setPlayingOffset t =>
      by_cases ho : s.getState = SourceState.Stopped
      · refine ⟨?_, ?_, ?_, ?_, ?_, ?_⟩ <;>
          simp [Stream.step, Stream.setPlayingOffset, ho, hstop]
      · have hfmt : ¬ s.format = 0 := by
          intro hf0
          have hb : s.isStreaming = false := h6 hf0
          have hw : s.workerCount = 0 := hcount0 hb
          have hv : s.voiceState = SourceState.Stopped := h5 hw
          exact ho (by simp [Stream.getState, hv, hb])
        refine ⟨?_, ?_, ?_, ?_, ?_, ?_⟩ <;>
          simp [Stream.step, Stream.setPlayingOffset, ho, hstop, hfmt]
  | openMusic c r =>
      refine ⟨?_, ?_, ?_, ?_, ?_, ?_⟩ <;>
        simp [Stream.step, Stream.initializeStream, hstop] <;>
        split_ifs <;> simp
  | setLoop b =>
      exact ⟨h1, h2, h3, h4, h5, h6⟩
  | workerStarted =>
      by_cases hw : s.workerCount = 1
      · have hb : s.isStreaming = true := h2.mpr hw
        have hst : ¬ s.threadStartState = SourceState.Stopped := h3 hb
        have hfmt : ¬ s.format = 0 := by
          intro hf0
          simp [h6 hf0] at hb
        refine ⟨?_, ?_, ?_, ?_, ?_, ?_⟩ <;>
          simp [Stream.step, hw, hst, hb, h1, h4, h2, hfmt]
      · simpa [Stream.step, hw] using ⟨h1, h2, h3, h4, h5, h6⟩
  | workerExit =>
      by_cases hw : s.workerCount = 1
      · refine ⟨?_, ?_, ?_, ?_, ?_, ?_⟩ <;> simp [Stream.step, hw]
      · simpa [Stream.step, hw] using ⟨h1, h2, h3, h4, h5, h6⟩
  | underrun =>
      by_cases hv : s.voiceState = SourceState.Playing
      · refine ⟨?_, ?_, ?_, ?_, ?_, ?_⟩ <;>
          simp [Stream.step, hv, h1] <;>
          first
          | exact h2
          | exact h3
          | exact h4
          | exact h6
      · simpa [Stream.step, hv] using ⟨h1, h2, h3, h4, h5, h6⟩

/-- Running any list of operations from an invariant state keeps the
invariant. -/
theorem Stream.inv_runOps (env : Nat → Int) (L : List Op) (s : Stream)
    (h : Stream.Inv s) : Stream.Inv (Stream.runOps env s L) := by
  induction L generalizing s with
  | nil => exact h
  | cons op rest ih => exact ih _ (Stream.inv_step env s op h)

/-- Every reachable stream state satisfies the engine invariant. -/
theorem Stream.inv_reachable (env : Nat → Int) (s : Stream)
    (h : Stream.Reachable env s) : Stream.Inv s := by
  obtain ⟨L, rfl⟩ := h
  exact Stream.inv_runOps env L Stream.mkInit Stream.inv_mkInit


/-- C1: for every sequence of `play()` calls issued from a single control
thread at most one worker thread is ever alive at a time; when a worker is
active and the engine is currently playing, `play()` stops it synchronously
first (in the effect trace the join of the old worker precedes the spawn of
the fresh one, which is the only spawn); when a worker is active and the
engine is paused, `play()` resumes in place and launches no new worker. -/
theorem Stream.play_single_worker (env : Nat → Int) (s : Stream)
    (h : Stream.Reachable env s) :
    s.workerCount ≤ 1 ∧
    (s.play).1.workerCount ≤ 1 ∧
    (s.isStreaming = true → s.threadStartState = SourceState.Playing →
      (s.play).2 =
        [Action.setStreaming false, Action.joinThread, Action.seek 0,
         Action.setSamples 0, Action.seek 0, Action.setSamples 0,
         Action.setStreaming true, Action.setStartState SourceState.Playing,
         Action.spawn SourceState.Playing] ∧
      joinBeforeSpawn (s.play).2 = true ∧
      spawnCount (s.play).2 = 1 ∧
      (s.play).1.workerCount = 1) ∧
    (s.isStreaming = true → s.threadStartState = SourceState.Paused →
      (s.play).2 = [Action.setStartState SourceState.Playing, Action.voicePlay] ∧
      spawnCount (s.play).2 = 0 ∧
      (s.play).1.workerCount = s.workerCount) := by
  have hinv := Stream.inv_reachable env s h
  obtain ⟨h1, h2, h3, h4, h5, h6⟩ := hinv
  refine ⟨h1, ?_, ?_, ?_⟩
  · exact (Stream.inv_step env s Op.play ⟨h1, h2, h3, h4, h5, h6⟩).1
  · intro hb hq
    have hfmt : ¬ s.format = 0 := by
      intro hf0
      simp [h6 hf0] at hb
    have hw : s.workerCount = 1 := h2.mp hb
    have hj : s.joinable = true := h4 hw
    have hp : ¬ (s.isStreaming = true ∧ s.threadStartState = SourceState.Paused) := by
      simp [hq]
    refine ⟨?_, ?_, ?_, ?_⟩ <;>
      simp [Stream.play, Stream.stop, hfmt, hb, hq, hp, hw, hj,
        joinBeforeSpawn, spawnCount]
  · intro hb hp
    have hfmt : ¬ s.format = 0 := by
      intro hf0
      simp [h6 hf0] at hb
    refine ⟨?_, ?_, ?_⟩ <;>
      simp [Stream.play, hfmt, hb, hp, spawnCount]

/-- C2: `stop()` first sets `m_isStreaming` to false, then joins the worker
(if the thread is joinable), and only after the join seeks the chunk source
back to time 0 and resets `m_samplesProcessed` to 0; after `stop()` returns
no worker is alive. -/
theorem Stream.stop_synchronous (env : Nat → Int) (s : Stream)
    (h : Stream.Reachable env s) :
    (s.stop).2 =
      Action.setStreaming false ::
        ((if s.joinable = true then [Action.joinThread] else []) ++
          [Action.seek 0, Action.setSamples 0]) ∧
    (s.stop).1 = { s with isStreaming := false, workerCount := 0,
                          joinable := false, voiceState := SourceState.Stopped,
                          sourceTime := 0, samplesProcessed := 0 } ∧
    (s.stop).1.workerCount = 0 ∧
    (s.stop).1.samplesProcessed = 0 ∧
    (s.stop).1.sourceTime = 0 := by
  have hinv := Stream.inv_reachable env s h
  have hstop := Stream.stop_fst_of_inv s hinv
  refine ⟨?_, hstop, ?_, ?_, ?_⟩
  · by_cases hj : s.joinable = true <;> simp [Stream.stop, hj]
  · simp [hstop]
  · simp [hstop]
  · simp [hstop]

/-- C5: when a worker is active and the requested state is Paused, `play()`
only sets the requested state to Playing and resumes the voice in place: no
`onSeek`, no reset of `m_samplesProcessed`, no touch of the ring buffers, no
new worker thread. -/
theorem Stream.play_resume_preserves_position (env : Nat → Int) (s : Stream)
    (h : Stream.Reachable env s) (hb : s.isStreaming = true)
    (hp : s.threadStartState = SourceState.Paused) :
    (s.play).1 = { s with threadStartState := SourceState.Playing,
                          voiceState := SourceState.Playing } ∧
    (s.play).2 = [Action.setStartState SourceState.Playing, Action.voicePlay] ∧
    (s.play).1.samplesProcessed = s.samplesProcessed ∧
    (s.play).1.sourceTime = s.sourceTime ∧
    (s.play).1.endBuffers = s.endBuffers ∧
    (s.play).1.workerCount = s.workerCount ∧
    (∀ t, Action.seek t ∉ (s.play).2) ∧
    (∀ st, Action.spawn st ∉ (s.play).2) := by
  have hinv := Stream.inv_reachable env s h
  have hfmt : ¬ s.format = 0 := by
    intro hf0
    simp [hinv.2.2.2.2.2 hf0] at hb
  refine ⟨?_, ?_, ?_, ?_, ?_, ?_, ?_, ?_⟩ <;>
    simp [Stream.play, hfmt, hb, hp]

/-- C6: `setPlayingOffset(t)` captures the logical state via `getState()`,
stops synchronously, seeks the source to `t`, sets `m_samplesProcessed` to
`t * sampleRate * channelCount`, and then spawns exactly one fresh worker in
the captured state if and only if that state was not Stopped. -/
theorem Stream.setPlayingOffset_spec (env : Nat → Int) (s : Stream)
    (h : Stream.Reachable env s) (t : Rat) :
    (s.setPlayingOffset t).1.sourceTime = t ∧
    (s.setPlayingOffset t).1.samplesProcessed =
      samplesFromTime t s.sampleRate s.channelCount ∧
    (s.getState = SourceState.Stopped →
      (s.setPlayingOffset t).1 =
        { s with isStreaming := false, workerCount := 0, joinable := false,
                 voiceState := SourceState.Stopped, sourceTime := t,
                 samplesProcessed := samplesFromTime t s.sampleRate s.channelCount } ∧
      (s.setPlayingOffset t).2 =
        (s.stop).2 ++
          [Action.seek t,
           Action.setSamples (samplesFromTime t s.sampleRate s.channelCount)] ∧
      spawnCount (s.setPlayingOffset t).2 = 0) ∧
    (s.getState ≠ SourceState.Stopped →
      (s.setPlayingOffset t).1 =
        { s with isStreaming := true, threadStartState := s.getState,
                 workerCount := 1, joinable := true,
                 voiceState := SourceState.Stopped, sourceTime := t,
                 samplesProcessed := samplesFromTime t s.sampleRate s.channelCount } ∧
      (s.setPlayingOffset t).2 =
        [Action.setStreaming false, Action.joinThread, Action.seek 0,
         Action.setSamples 0, Action.seek t,
         Action.setSamples (samplesFromTime t s.sampleRate s.channelCount),
         Action.setStreaming true, Action.setStartState s.getState,
         Action.spawn s.getState] ∧
      spawnCount (s.setPlayingOffset t).2 = 1 ∧
      joinBeforeSpawn (s.setPlayingOffset t).2 = true) := by
  have hinv := Stream.inv_reachable env s h
  obtain ⟨h1, h2, h3, h4, h5, h6⟩ := hinv
  have hstop := Stream.stop_fst_of_inv s ⟨h1, h2, h3, h4, h5, h6⟩
  refine ⟨?_, ?_, ?_, ?_⟩
  · by_cases ho : s.getState = SourceState.Stopped <;>
      simp [Stream.setPlayingOffset, ho, hstop]
  · by_cases ho : s.getState = SourceState.Stopped <;>
      simp [Stream.setPlayingOffset, ho, hstop]
  · intro ho
    refine ⟨?_, ?_, ?_⟩
    · simp [Stream.setPlayingOffset, ho, hstop]
    · simp [Stream.setPlayingOffset, ho, hstop]
    · by_cases hj : s.joinable = true <;>
        simp [Stream.setPlayingOffset, Stream.stop, ho, hj, spawnCount]
  · intro ho
    have hj : s.joinable = true := by
      apply h4
      by_cases hb : s.isStreaming = true
      · exact h2.mp hb
      · exfalso
        have hb' : s.isStreaming = false := by simpa using hb
        rcases Nat.lt_or_ge s.workerCount 1 with hlt | hge
        · have hw0 : s.workerCount = 0 := by omega
          exact ho (by simp [Stream.getState, h5 hw0, hb'])
        · have h' : s.workerCount = 1 := by omega
          simp [h2.mpr h'] at hb'
    refine ⟨?_, ?_, ?_, ?_⟩
    · simp [Stream.setPlayingOffset, ho, hstop]
    · simp [Stream.setPlayingOffset, Stream.stop, ho, hj]
    · simp [Stream.setPlayingOffset, Stream.stop, ho, hj, spawnCount]
    · simp [Stream.setPlayingOffset, Stream.stop, ho, hj, joinBeforeSpawn]

/-- C7: `initialize(channelCount, sampleRate)` with a channel count that maps
to no supported hardware format clears channel count and sample rate to 0 and
leaves the format 0, and every `play()` on a stream whose format is 0 warns
and returns without changing any state. -/
theorem Stream.initializeStream_unsupported (env : Nat → Int) (s : Stream)
    (channelCount sampleRate : Nat)
    (hz : Device.getFormatFromChannelCount env channelCount = 0) :
    (s.initializeStream env channelCount sampleRate).1.channelCount = 0 ∧
    (s.initializeStream env channelCount sampleRate).1.sampleRate = 0 ∧
    (s.initializeStream env channelCount sampleRate).1.format = 0 ∧
    (s.initializeStream env channelCount sampleRate).2 = [Action.warnUnsupported] ∧
    (∀ s' : Stream, s'.format = 0 → s'.play = (s', [Action.warnNotInit])) := by
  refine ⟨?_, ?_, ?_, ?_, ?_⟩
  · simp [Stream.initializeStream, hz, Int.zero_emod]
  · simp [Stream.initializeStream, hz, Int.zero_emod]
  · simp [Stream.initializeStream, hz, Int.zero_emod]
  · simp [Stream.initializeStream, hz, Int.zero_emod]
  · intro s' hf
    simp [Stream.play, hf]



/-- Membership in the upload-and-enqueue effect list: only a non-empty chunk
is uploaded (at the stream's format and rate, into the given slot) and
enqueued. -/
theorem pushActions_mem (s : Stream) (r : GetDataResult) (i : Fin 3) (a : Action)
    (ha : a ∈ pushActions s r i) :
    (∃ c : Nat, c ≠ 0 ∧ a = Action.bufferData i (c * 2) s.format s.sampleRate) ∨
    a = Action.enqueue i := by
  simp only [pushActions] at ha
  split_ifs at ha with hdata
  · simp only [List.mem_cons, List.not_mem_nil, or_false] at ha
    rcases ha with rfl | rfl
    · exact Or.inl ⟨r.count, hdata.2, rfl⟩
    · exact Or.inr rfl
  · simp at ha

/-- A slot whose end-of-stream flag is set keeps it set across any run of
`fillAndPushBuffer` (the procedure only ever sets flags, never clears them). -/
theorem Stream.fillAndPushBuffer_preserves_flag (rs : List GetDataResult)
    (s : Stream) (i j : Fin 3) (out : Bool × Stream × List Action)
    (hout : s.fillAndPushBuffer rs i = some out)
    (hj : s.endBuffers j = true) : out.2.1.endBuffers j = true := by
  induction rs generalizing s out with
  | nil => simp [Stream.fillAndPushBuffer] at hout
  | cons r rest ih =>
    simp only [Stream.fillAndPushBuffer] at hout
    split_ifs at hout with hret hloop hempty
    · obtain ⟨rfl⟩ : (false, s, pushActions s r i) = out := by
        simpa using hout
      exact hj
    · rw [Option.map_eq_some'] at hout
      obtain ⟨p, hp, hfp⟩ := hout
      have := ih _ p hp (by simp [Function.update_apply, hj])
      rw [← hfp]
      exact this
    · obtain ⟨rfl⟩ :
          (false,
           ({ s with endBuffers := Function.update s.endBuffers i true,
                     sourceTime := 0 } : Stream),
           Action.seek 0 ::
             pushActions { s with endBuffers := Function.update s.endBuffers i true,
                                  sourceTime := 0 } r i) = out := by
        simpa using hout
      simp [Function.update_apply, hj]
    · obtain ⟨rfl⟩ :
          (true, ({ s with endBuffers := Function.update s.endBuffers i true } : Stream),
           pushActions { s with endBuffers := Function.update s.endBuffers i true } r i) =
            out := by
        simpa using hout
      simp [Function.update_apply, hj]

/-- `fillAndPushBuffer` leaves the source seek position alone or seeks it to
time 0 (the `onSeek(0.f)` of the looping branch). -/
theorem Stream.fillAndPushBuffer_sourceTime (rs : List GetDataResult)
    (s : Stream) (i : Fin 3) (out : Bool × Stream × List Action)
    (hout : s.fillAndPushBuffer rs i = some out) :
    out.2.1.sourceTime = s.sourceTime ∨ out.2.1.sourceTime = 0 := by
  induction rs generalizing s out with
  | nil => simp [Stream.fillAndPushBuffer] at hout
  | cons r rest ih =>
    simp only [Stream.fillAndPushBuffer] at hout
    split_ifs at hout with hret hloop hempty
    · obtain ⟨rfl⟩ : (false, s, pushActions s r i) = out := by
        simpa using hout
      exact Or.inl rfl
    · rw [Option.map_eq_some'] at hout
      obtain ⟨p, hp, hfp⟩ := hout
      rcases ih _ p hp with hcase | hcase
      · rw [← hfp]
        exact Or.inr (by simpa using hcase)
      · rw [← hfp]
        exact Or.inr hcase
    · obtain ⟨rfl⟩ :
          (false,
           ({ s with endBuffers := Function.update s.endBuffers i true,
                     sourceTime := 0 } : Stream),
           Action.seek 0 ::
             pushActions { s with endBuffers := Function.update s.endBuffers i true,
                                  sourceTime := 0 } r i) = out := by
        simpa using hout
      exact Or.inr rfl
    · obtain ⟨rfl⟩ :
          (true, ({ s with endBuffers := Function.update s.endBuffers i true } : Stream),
           pushActions { s with endBuffers := Function.update s.endBuffers i true } r i) =
            out := by
        simpa using hout
      exact Or.inl rfl

/-- Every effect emitted by `fillAndPushBuffer` is either the loop-branch
seek to 0, an upload of a non-empty chunk into slot `i`'s hardware buffer at
the engine's format and sample rate, or the enqueue of slot `i`. -/
theorem Stream.fillAndPushBuffer_trace (rs : List GetDataResult)
    (s : Stream) (i : Fin 3) (out : Bool × Stream × List Action)
    (hout : s.fillAndPushBuffer rs i = some out) :
    ∀ a ∈ out.2.2, a = Action.seek 0 ∨
      (∃ c : Nat, c ≠ 0 ∧ a = Action.bufferData i (c * 2) s.format s.sampleRate) ∨
      a = Action.enqueue i := by
  induction rs generalizing s out with
  | nil => simp [Stream.fillAndPushBuffer] at hout
  | cons r rest ih =>
    simp only [Stream.fillAndPushBuffer] at hout
    split_ifs at hout with hret hloop hempty
    · obtain ⟨rfl⟩ : (false, s, pushActions s r i) = out := by
        simpa using hout
      intro a ha
      exact Or.inr (pushActions_mem s r i a ha)
    · rw [Option.map_eq_some'] at hout
      obtain ⟨p, hp, hfp⟩ := hout
      intro a ha
      rw [← hfp] at ha
      simp only [List.mem_cons] at ha
      rcases ha with rfl | ha
      · exact Or.inl rfl
      · exact ih _ p hp a ha
    · obtain ⟨rfl⟩ :
          (false,
           ({ s with endBuffers := Function.update s.endBuffers i true,
                     sourceTime := 0 } : Stream),
           Action.seek 0 ::
             pushActions { s with endBuffers := Function.update s.endBuffers i true,
                                  sourceTime := 0 } r i) = out := by
        simpa using hout
      intro a ha
      simp only [List.mem_cons] at ha
      rcases ha with rfl | ha
      · exact Or.inl rfl
      · exact Or.inr (pushActions_mem _ r i a ha)
    · obtain ⟨rfl⟩ :
          (true, ({ s with endBuffers := Function.update s.endBuffers i true } : Stream),
           pushActions { s with endBuffers := Function.update s.endBuffers i true } r i) =
            out := by
        simpa using hout
      intro a ha
      exact Or.inr (pushActions_mem _ r i a ha)


/-- C3: on an `onGetData` returning false, `fillAndPushBuffer` sets the
slot's end-of-stream flag; with looping enabled it seeks the source to 0 and,
when the short read yielded no samples, retries the same slot from the top;
with looping disabled it returns a pending stop; and whenever any samples
were obtained they are uploaded and enqueued: a successful read pushes its
chunk (sixth conjunct), a looping non-empty short read pushes its chunk after
the seek (seventh conjunct), a non-looping short read pushes its chunk with
the pending stop (fourth conjunct), and the push of a non-empty chunk is
exactly the upload into the slot's hardware buffer at the engine's format and
sample rate followed by the enqueue on the voice (eighth conjunct); an empty
buffer is never enqueued (fifth conjunct). -/
theorem Stream.fillAndPushBuffer_spec (s : Stream) (r : GetDataResult)
    (rest : List GetDataResult) (bufferNum : Fin 3) :
    (∀ out, s.fillAndPushBuffer (r :: rest) bufferNum = some out →
       r.ret = false → out.2.1.endBuffers bufferNum = true) ∧
    (∀ out, s.fillAndPushBuffer (r :: rest) bufferNum = some out →
       r.ret = false → s.loop = true → out.2.1.sourceTime = 0) ∧
    (r.ret = false → s.loop = true → (r.nonNull = false ∨ r.count = 0) →
       s.fillAndPushBuffer (r :: rest) bufferNum =
         (Stream.fillAndPushBuffer
            { s with endBuffers := Function.update s.endBuffers bufferNum true,
                     sourceTime := 0 } rest bufferNum).map
           (fun p => (p.1, p.2.1, Action.seek 0 :: p.2.2))) ∧
    (r.ret = false → s.loop = false →
       s.fillAndPushBuffer (r :: rest) bufferNum =
         some (true,
               { s with endBuffers := Function.update s.endBuffers bufferNum true },
               pushActions
                 { s with endBuffers := Function.update s.endBuffers bufferNum true }
                 r bufferNum)) ∧
    (∀ out, s.fillAndPushBuffer (r :: rest) bufferNum = some out →
       ∀ a ∈ out.2.2, a = Action.seek 0 ∨
         (∃ c : Nat, c ≠ 0 ∧
            a = Action.bufferData bufferNum (c * 2) s.format s.sampleRate) ∨
         a = Action.enqueue bufferNum) ∧
    (r.ret = true →
       s.fillAndPushBuffer (r :: rest) bufferNum =
         some (false, s, pushActions s r bufferNum)) ∧
    (r.ret = false → s.loop = true → r.nonNull = true → r.count ≠ 0 →
       s.fillAndPushBuffer (r :: rest) bufferNum =
         some (false,
               { s with endBuffers := Function.update s.endBuffers bufferNum true,
                        sourceTime := 0 },
               Action.seek 0 ::
                 pushActions
                   { s with endBuffers := Function.update s.endBuffers bufferNum true,
                            sourceTime := 0 } r bufferNum)) ∧
    (r.nonNull = true → r.count ≠ 0 →
       pushActions s r bufferNum =
         [Action.bufferData bufferNum (r.count * 2) s.format s.sampleRate,
          Action.enqueue bufferNum]) := by
  refine ⟨?_, ?_, ?_, ?_, ?_, ?_, ?_, ?_⟩
  · intro out hout hret
    by_cases hloop : s.loop = true
    · by_cases hempty : r.nonNull = false ∨ r.count = 0
      · simp only [Stream.fillAndPushBuffer, hret, hloop, hempty, if_true, if_pos,
          Bool.false_eq_true, if_false] at hout
        rw [Option.map_eq_some'] at hout
        obtain ⟨p, hp, hfp⟩ := hout
        rw [← hfp]
        exact Stream.fillAndPushBuffer_preserves_flag rest _ bufferNum bufferNum p hp
          (by simp [Function.update_apply])
      · simp only [Stream.fillAndPushBuffer, hret, hloop, hempty, Bool.false_eq_true,
          if_false, if_pos, if_neg] at hout
        obtain rfl := (Option.some.injEq _ _).mp hout.symm
        simp [Function.update_apply]
    · simp only [Stream.fillAndPushBuffer, hret, hloop, Bool.false_eq_true,
        if_false] at hout
      obtain rfl := (Option.some.injEq _ _).mp hout.symm
      simp [Function.update_apply]
  · intro out hout hret hloop
    by_cases hempty : r.nonNull = false ∨ r.count = 0
    · simp only [Stream.fillAndPushBuffer, hret, hloop, hempty, if_true, if_pos,
        Bool.false_eq_true, if_false] at hout
      rw [Option.map_eq_some'] at hout
      obtain ⟨p, hp, hfp⟩ := hout
      rcases Stream.fillAndPushBuffer_sourceTime rest _ bufferNum p hp with hc | hc
      · rw [← hfp]
        simpa using hc
      · rw [← hfp]
        exact hc
    · simp only [Stream.fillAndPushBuffer, hret, hloop, hempty, Bool.false_eq_true,
        if_false, if_pos, if_neg] at hout
      obtain rfl := (Option.some.injEq _ _).mp hout.symm
      simp
  · intro hret hloop hempty
    simp [Stream.fillAndPushBuffer, hret, hloop, hempty]
  · intro hret hloop
    simp [Stream.fillAndPushBuffer, hret, hloop]
  · intro out hout
    exact Stream.fillAndPushBuffer_trace (r :: rest) s bufferNum out hout
  · intro hret
    simp [Stream.fillAndPushBuffer, hret]
  · intro hret hloop hnn hc
    simp [Stream.fillAndPushBuffer, hret, hloop, hnn, hc]
  · intro hnn hc
    simp [pushActions, hnn, hc]

/-- With all end-of-stream flags clear and no corrupt buffer, the dequeue
handling never resets `m_samplesProcessed`. -/
theorem Stream.processDequeued_no_flags (bs : List ProcessedBuffer) (s : Stream)
    (hflags : ∀ j, s.endBuffers j = false) (hbits : ∀ b ∈ bs, b.bits ≠ 0) :
    (s.processDequeued bs).2 = 0 := by
  induction bs generalizing s with
  | nil => simp [Stream.processDequeued]
  | cons b rest ih =>
    have hb : b.bits ≠ 0 := hbits b (by simp)
    have hflag := hflags b.slot
    simp only [Stream.processDequeued, Stream.handleDequeuedBuffer, hflag,
      Bool.false_eq_true, if_false, hb, if_neg]
    exact ih _ hflags (fun c hc => hbits c (by simp [hc]))

/-- With exactly one end-of-stream flag set (slot `j`), no corrupt buffer and
`j` dequeued exactly once, the dequeue handling resets `m_samplesProcessed`
exactly once. -/
theorem Stream.processDequeued_one_flag (bs : List ProcessedBuffer) (s : Stream)
    (j : Fin 3) (hflag : s.endBuffers j = true)
    (hother : ∀ k, k ≠ j → s.endBuffers k = false)
    (hbits : ∀ b ∈ bs, b.bits ≠ 0)
    (hcount : (bs.map ProcessedBuffer.slot).count j = 1) :
    (s.processDequeued bs).2 = 1 := by
  induction bs generalizing s with
  | nil => simp at hcount
  | cons b rest ih =>
    by_cases hslot : b.slot = j
    · have hflagb : s.endBuffers b.slot = true := by rw [hslot]; exact hflag
      simp only [Stream.processDequeued, Stream.handleDequeuedBuffer, hflagb, if_pos]
      have hz : (Stream.processDequeued
          { s with samplesProcessed := 0,
                   endBuffers := Function.update s.endBuffers b.slot false }
          rest).2 = 0 := by
        refine Stream.processDequeued_no_flags rest _ ?_
          (fun c hc => hbits c (by simp [hc]))
        intro k
        by_cases hk : k = b.slot
        · rw [hk]
          exact Function.update_same _ _ _
        · simp only [Function.update_apply, if_neg hk]
          exact hother k (by rw [hslot] at hk; exact hk)
      simp [hz]
    · have hflagb : s.endBuffers b.slot = false := hother b.slot hslot
      have hb : b.bits ≠ 0 := hbits b (by simp)
      simp only [Stream.processDequeued, Stream.handleDequeuedBuffer, hflagb,
        Bool.false_eq_true, if_false, hb, if_neg]
      refine ih _ hflag hother (fun c hc => hbits c (by simp [hc])) ?_
      simpa [List.count_cons, hslot] using hcount

/-- C4: `m_samplesProcessed` is reset exactly at loop boundaries: a dequeued
slot with its end-of-stream flag set resets the counter to 0 and clears the
flag; a dequeued slot whose flag is clear (and whose bit depth is sane)
advances the counter by the buffer's sample count and never resets it; and a
playthrough that flagged exactly one slot, dequeued exactly once, produces
exactly one reset. -/
theorem Stream.loop_boundary_reset (s : Stream) (b : ProcessedBuffer) (j : Fin 3)
    (bs : List ProcessedBuffer) :
    (s.endBuffers b.slot = true →
       s.handleDequeuedBuffer b =
         ({ s with samplesProcessed := 0,
                   endBuffers := Function.update s.endBuffers b.slot false },
          DequeueOutcome.reset, [Action.setSamples 0])) ∧
    (s.endBuffers b.slot = false → b.bits ≠ 0 →
       s.handleDequeuedBuffer b =
         ({ s with samplesProcessed :=
              (s.samplesProcessed + b.sizeBytes / (b.bits / 8)) % 2 ^ 64 },
          DequeueOutcome.advanced (b.sizeBytes / (b.bits / 8)), [])) ∧
    (s.endBuffers b.slot = false →
       (s.handleDequeuedBuffer b).2.1 ≠ DequeueOutcome.reset) ∧
    (s.endBuffers j = true → (∀ k, k ≠ j → s.endBuffers k = false) →
       (∀ pb ∈ bs, pb.bits ≠ 0) → (bs.map ProcessedBuffer.slot).count j = 1 →
       (s.processDequeued bs).2 = 1) := by
  refine ⟨?_, ?_, ?_, ?_⟩
  · intro hflag
    simp [Stream.handleDequeuedBuffer, hflag]
  · intro hflag hb
    simp [Stream.handleDequeuedBuffer, hflag, hb]
  · intro hflag
    by_cases hb : b.bits = 0 <;> simp [Stream.handleDequeuedBuffer, hflag, hb]
  · intro hflag hother hbits hcount
    exact Stream.processDequeued_one_flag bs s j hflag hother hbits hcount

/-- C8: a dequeued non-terminal buffer reporting bit depth 0 stops the stream
instead of crashing: the handler warns, sets `m_isStreaming` to false,
records a pending stop (`aborted` breaks out of the processing loop, so no
further buffer is handled), does not execute the division and leaves
`m_samplesProcessed` untouched. -/
theorem Stream.zero_bits_aborts (s : Stream) (b : ProcessedBuffer)
    (hflag : s.endBuffers b.slot = false) (hbits : b.bits = 0) :
    s.handleDequeuedBuffer b =
      ({ s with isStreaming := false }, DequeueOutcome.aborted,
       [Action.warnBits, Action.setStreaming false]) ∧
    (s.handleDequeuedBuffer b).1.samplesProcessed = s.samplesProcessed ∧
    (s.handleDequeuedBuffer b).1.isStreaming = false ∧
    Action.warnBits ∈ (s.handleDequeuedBuffer b).2.2 ∧
    (∀ rest, s.processDequeued (b :: rest) = ({ s with isStreaming := false }, 0)) := by
  refine ⟨?_, ?_, ?_, ?_, ?_⟩
  · simp [Stream.handleDequeuedBuffer, hflag, hbits]
  · simp [Stream.handleDequeuedBuffer, hflag, hbits]
  · simp [Stream.handleDequeuedBuffer, hflag, hbits]
  · simp [Stream.handleDequeuedBuffer, hflag, hbits]
  · intro rest
    simp [Stream.processDequeued, Stream.handleDequeuedBuffer, hflag, hbits]



/-- C9 counterexample: the write of `m_isStreaming` at emyl.cpp line 1762 (the
fresh-start path of `Stream::play`) does not hold `m_threadMutex`, refuting
the claim that every access to the pair is performed under the mutex. -/
theorem sharedStateAccesses_unlocked_write :
    ({ fn := "Stream::play", line := 1762, field := "m_isStreaming",
       isWrite := true, underMutex := false } : FieldAccess) ∈ sharedStateAccesses ∧
    ¬ (∀ a ∈ sharedStateAccesses, a.underMutex = true) := by
  constructor
  · simp [sharedStateAccesses]
  · intro hall
    have h := hall { fn := "Stream::play", line := 1762, field := "m_isStreaming",
                     isWrite := true, underMutex := false }
      (by simp [sharedStateAccesses])
    simp at h

/-- C9 (amended): every read and write of `m_isStreaming` and
`m_threadStartState` holds `m_threadMutex`, except the fresh-start writes in
`Stream::play` (lines 1762-1763) and the restart writes in
`Stream::setPlayingOffset` (lines 1856-1857), which run after the previous
worker has been stopped and joined. -/
theorem sharedStateAccesses_locked_except_restart :
    (sharedStateAccesses.filter (fun a => ! a.underMutex)).map
        (fun a => (a.fn, a.line)) =
      [("Stream::play", 1762), ("Stream::play", 1763),
       ("Stream::setPlayingOffset", 1856), ("Stream::setPlayingOffset", 1857)] := by
  rfl

set_option maxRecDepth 4000 in
/-- C10: before `open` (null data) `read`, `seek`, `tell` and `getSize` all
return -1; after `open(data, n)` with non-null data, `seek(p)` for
non-negative `p` sets the offset to `min p n` and returns it, `read(dest, k)`
copies exactly `min k (n - offset)` bytes, advances the offset by that amount
(so a read never goes past the end) and returns it, and `getSize` returns
`n`. -/
theorem MemoryInputStream.read_seek_spec (m : MemoryInputStream) (n : Nat)
    (p k : Int) (hn : (n : Int) < 2 ^ 63)
    (hd : m.dataPresent = true) (hs : m.size = (n : Int))
    (hoff0 : 0 ≤ m.offset) (hoffn : m.offset ≤ (n : Int))
    (hp : 0 ≤ p) (hk : 0 ≤ k) :
    (∀ q : Int, MemoryInputStream.mkInit.read q = (-1, MemoryInputStream.mkInit) ∧
       MemoryInputStream.mkInit.seek q = (-1, MemoryInputStream.mkInit)) ∧
    MemoryInputStream.mkInit.tell = -1 ∧
    MemoryInputStream.mkInit.getSize = -1 ∧
    (MemoryInputStream.openMem true n).offset = 0 ∧
    (MemoryInputStream.openMem true n).getSize = (n : Int) ∧
    m.seek p = (min p (n : Int), { m with offset := min p (n : Int) }) ∧
    m.read k = (min k ((n : Int) - m.offset),
                { m with offset := m.offset + min k ((n : Int) - m.offset) }) ∧
    m.offset + min k ((n : Int) - m.offset) ≤ (n : Int) ∧
    m.tell = m.offset ∧
    m.getSize = (n : Int) := by
  have hbmod : toInt64 n = (n : Int) := by
    have h0 : 0 ≤ (n : Int) := Int.ofNat_nonneg n
    simp only [toInt64]
    split_ifs with hlt <;> omega
  have hm : ({ dataPresent := true, size := (n : Int), offset := m.offset } :
      MemoryInputStream) = m := by
    rw [← hd, ← hs]
  refine ⟨?_, ?_, ?_, ?_, ?_, ?_, ?_, ?_, ?_, ?_⟩
  · intro q
    constructor <;>
      simp [MemoryInputStream.read, MemoryInputStream.seek, MemoryInputStream.mkInit]
  · simp [MemoryInputStream.tell, MemoryInputStream.mkInit]
  · simp [MemoryInputStream.getSize, MemoryInputStream.mkInit]
  · rfl
  · rw [MemoryInputStream.getSize, MemoryInputStream.openMem, ← hbmod]
    simp
  · by_cases hlt : p < (n : Int)
    · simp [MemoryInputStream.seek, hd, hs, hlt, min_eq_left (le_of_lt hlt)]
    · have hge : (n : Int) ≤ p := le_of_not_lt hlt
      simp [MemoryInputStream.seek, hd, hs, hlt, min_eq_right hge]
  · by_cases hc : m.offset + k ≤ (n : Int)
    · have hmin : min k ((n : Int) - m.offset) = k := min_eq_left (by omega)
      by_cases hpos : 0 < k
      · simp [MemoryInputStream.read, hd, hs, hc, hpos, hmin]
      · have hk0 : k = 0 := by omega
        subst hk0
        simp [MemoryInputStream.read, hd, hs, hoffn, hmin]
        exact hm.symm
    · have hmin : min k ((n : Int) - m.offset) = (n : Int) - m.offset :=
        min_eq_right (by omega)
      by_cases hpos : 0 < (n : Int) - m.offset
      · simp only [MemoryInputStream.read, hd, Bool.true_eq_false, if_false, hs,
          if_neg hc, hmin, if_pos hpos]
      · have hzero : (n : Int) - m.offset = 0 := by omega
        simp only [MemoryInputStream.read, hd, Bool.true_eq_false, if_false, hs,
          if_neg hc, hmin, if_neg hpos]
        simp [hzero]
        exact hm.symm
  · have : min k ((n : Int) - m.offset) ≤ (n : Int) - m.offset := min_le_right _ _
    omega
  · simp [MemoryInputStream.tell, hd]
  · simp [MemoryInputStream.getSize, hd, hs]



/-- Witness for C1: concrete runs reaching a playing and a paused engine, with
the conclusions of the theorem instantiated there. -/
theorem Stream.play_single_worker_witness :
    ((Stream.runOps (fun _ => 0) Stream.mkInit [Op.openMusic 1 44100, Op.play]).play).1.workerCount ≤ 1 ∧
    ((Stream.runOps (fun _ => 0) Stream.mkInit [Op.openMusic 1 44100, Op.play]).play).2 =
      [Action.setStreaming false, Action.joinThread, Action.seek 0,
       Action.setSamples 0, Action.seek 0, Action.setSamples 0,
       Action.setStreaming true, Action.setStartState SourceState.Playing,
       Action.spawn SourceState.Playing] ∧
    ((Stream.runOps (fun _ => 0) Stream.mkInit [Op.openMusic 1 44100, Op.play, Op.pause]).play).2 =
      [Action.setStartState SourceState.Playing, Action.voicePlay] := by
  refine ⟨?_, ?_, ?_⟩
  · exact (Stream.play_single_worker (fun _ => 0) _
      ⟨[Op.openMusic 1 44100, Op.play], rfl⟩).2.1
  · exact ((Stream.play_single_worker (fun _ => 0) _
      ⟨[Op.openMusic 1 44100, Op.play], rfl⟩).2.2.1 (by decide) (by decide)).1
  · exact ((Stream.play_single_worker (fun _ => 0) _
      ⟨[Op.openMusic 1 44100, Op.play, Op.pause], rfl⟩).2.2.2 (by decide) (by decide)).1

/-- Witness for C2: stopping a concretely reached playing engine. -/
theorem Stream.stop_synchronous_witness :
    ((Stream.runOps (fun _ => 0) Stream.mkInit [Op.openMusic 1 44100, Op.play]).stop).2 =
      Action.setStreaming false ::
        ((if (Stream.runOps (fun _ => 0) Stream.mkInit
              [Op.openMusic 1 44100, Op.play]).joinable = true
          then [Action.joinThread] else []) ++
          [Action.seek 0, Action.setSamples 0]) ∧
    ((Stream.runOps (fun _ => 0) Stream.mkInit [Op.openMusic 1 44100, Op.play]).stop).1.workerCount = 0 ∧
    ((Stream.runOps (fun _ => 0) Stream.mkInit [Op.openMusic 1 44100, Op.play]).stop).1.samplesProcessed = 0 := by
  refine ⟨?_, ?_, ?_⟩
  · exact (Stream.stop_synchronous (fun _ => 0) _
      ⟨[Op.openMusic 1 44100, Op.play], rfl⟩).1
  · exact (Stream.stop_synchronous (fun _ => 0) _
      ⟨[Op.openMusic 1 44100, Op.play], rfl⟩).2.2.1
  · exact (Stream.stop_synchronous (fun _ => 0) _
      ⟨[Op.openMusic 1 44100, Op.play], rfl⟩).2.2.2.1

/-- Witness for C3: a non-looping end-of-source read on a fresh stream with
the resulting terminal push, the looping retry equation on a loop-enabled
stream, the push of a successful full read, the push of a looping non-empty
short read, and the concrete upload-and-enqueue expansion of a non-empty
push. -/
theorem Stream.fillAndPushBuffer_spec_witness :
    Stream.fillAndPushBuffer Stream.mkInit
        [{ ret := false, nonNull := true, count := 7 }] 0 =
      some (true,
        { Stream.mkInit with
            endBuffers := Function.update Stream.mkInit.endBuffers 0 true },
        pushActions
          { Stream.mkInit with
              endBuffers := Function.update Stream.mkInit.endBuffers 0 true }
          { ret := false, nonNull := true, count := 7 } 0) ∧
    Stream.fillAndPushBuffer { Stream.mkInit with loop := true }
        ({ ret := false, nonNull := false, count := 0 } ::
          [{ ret := true, nonNull := true, count := 44100 }]) 0 =
      (Stream.fillAndPushBuffer
          { { Stream.mkInit with loop := true } with
              endBuffers := Function.update
                { Stream.mkInit with loop := true }.endBuffers 0 true,
              sourceTime := 0 }
          [{ ret := true, nonNull := true, count := 44100 }] 0).map
        (fun p => (p.1, p.2.1, Action.seek 0 :: p.2.2)) ∧
    Stream.fillAndPushBuffer Stream.mkInit
        [{ ret := true, nonNull := true, count := 44100 }] 0 =
      some (false, Stream.mkInit,
            pushActions Stream.mkInit
              { ret := true, nonNull := true, count := 44100 } 0) ∧
    Stream.fillAndPushBuffer { Stream.mkInit with loop := true }
        [{ ret := false, nonNull := true, count := 5 }] 0 =
      some (false,
            { { Stream.mkInit with loop := true } with
                endBuffers := Function.update
                  { Stream.mkInit with loop := true }.endBuffers 0 true,
                sourceTime := 0 },
            Action.seek 0 ::
              pushActions
                { { Stream.mkInit with loop := true } with
                    endBuffers := Function.update
                      { Stream.mkInit with loop := true }.endBuffers 0 true,
                    sourceTime := 0 }
                { ret := false, nonNull := true, count := 5 } 0) ∧
    pushActions Stream.mkInit { ret := true, nonNull := true, count := 44100 } 0 =
      [Action.bufferData 0 (44100 * 2) Stream.mkInit.format Stream.mkInit.sampleRate,
       Action.enqueue 0] := by
  refine ⟨?_, ?_, ?_, ?_, ?_⟩
  · exact (Stream.fillAndPushBuffer_spec Stream.mkInit
      { ret := false, nonNull := true, count := 7 } [] 0).2.2.2.1 rfl rfl
  · exact (Stream.fillAndPushBuffer_spec { Stream.mkInit with loop := true }
      { ret := false, nonNull := false, count := 0 }
      [{ ret := true, nonNull := true, count := 44100 }] 0).2.2.1 rfl rfl (Or.inl rfl)
  · exact (Stream.fillAndPushBuffer_spec Stream.mkInit
      { ret := true, nonNull := true, count := 44100 } [] 0).2.2.2.2.2.1 rfl
  · exact (Stream.fillAndPushBuffer_spec { Stream.mkInit with loop := true }
      { ret := false, nonNull := true, count := 5 } [] 0).2.2.2.2.2.2.1
      rfl rfl rfl (by decide)
  · exact (Stream.fillAndPushBuffer_spec Stream.mkInit
      { ret := true, nonNull := true, count := 44100 } [] 0).2.2.2.2.2.2.2
      rfl (by decide)

/-- Witness for C4: one flagged slot, dequeued once among non-corrupt buffers,
yields exactly one reset; a flagged dequeue resets and clears; an unflagged
dequeue advances. -/
theorem Stream.loop_boundary_reset_witness :
    (({ Stream.mkInit with
          endBuffers := Function.update Stream.mkInit.endBuffers 1 true } : Stream).processDequeued
        [{ slot := 0, sizeBytes := 4, bits := 16 },
         { slot := 1, sizeBytes := 4, bits := 16 },
         { slot := 2, sizeBytes := 4, bits := 16 }]).2 = 1 ∧
    (({ Stream.mkInit with
          endBuffers := Function.update Stream.mkInit.endBuffers 1 true } : Stream).handleDequeuedBuffer
        { slot := 1, sizeBytes := 4, bits := 16 }).2.1 = DequeueOutcome.reset ∧
    (Stream.mkInit.handleDequeuedBuffer
        { slot := 2, sizeBytes := 8, bits := 16 }).2.1 ≠ DequeueOutcome.reset := by
  refine ⟨?_, ?_, ?_⟩
  · exact (Stream.loop_boundary_reset _ { slot := 1, sizeBytes := 4, bits := 16 } 1
      [{ slot := 0, sizeBytes := 4, bits := 16 },
       { slot := 1, sizeBytes := 4, bits := 16 },
       { slot := 2, sizeBytes := 4, bits := 16 }]).2.2.2
      (by decide) (by decide) (by decide) (by decide)
  · rw [(Stream.loop_boundary_reset _ { slot := 1, sizeBytes := 4, bits := 16 } 1
      []).1 (by decide)]
  · exact (Stream.loop_boundary_reset Stream.mkInit
      { slot := 2, sizeBytes := 8, bits := 16 } 0 []).2.2.1 (by decide)

/-- Witness for C5: resuming a concretely reached paused engine. -/
theorem Stream.play_resume_preserves_position_witness :
    ((Stream.runOps (fun _ => 0) Stream.mkInit [Op.openMusic 1 44100, Op.play, Op.pause]).play).1.samplesProcessed =
      (Stream.runOps (fun _ => 0) Stream.mkInit [Op.openMusic 1 44100, Op.play, Op.pause]).samplesProcessed ∧
    ((Stream.runOps (fun _ => 0) Stream.mkInit [Op.openMusic 1 44100, Op.play, Op.pause]).play).1.sourceTime =
      (Stream.runOps (fun _ => 0) Stream.mkInit [Op.openMusic 1 44100, Op.play, Op.pause]).sourceTime ∧
    ((Stream.runOps (fun _ => 0) Stream.mkInit [Op.openMusic 1 44100, Op.play, Op.pause]).play).1.workerCount =
      (Stream.runOps (fun _ => 0) Stream.mkInit [Op.openMusic 1 44100, Op.play, Op.pause]).workerCount := by
  refine ⟨?_, ?_, ?_⟩
  · exact (Stream.play_resume_preserves_position (fun _ => 0) _
      ⟨[Op.openMusic 1 44100, Op.play, Op.pause], rfl⟩ (by decide) (by decide)).2.2.1
  · exact (Stream.play_resume_preserves_position (fun _ => 0) _
      ⟨[Op.openMusic 1 44100, Op.play, Op.pause], rfl⟩ (by decide) (by decide)).2.2.2.1
  · exact (Stream.play_resume_preserves_position (fun _ => 0) _
      ⟨[Op.openMusic 1 44100, Op.play, Op.pause], rfl⟩ (by decide) (by decide)).2.2.2.2.2.1

/-- Witness for C6: seeking a stopped engine spawns nothing; seeking an
engine whose voice is playing spawns exactly one worker. -/
theorem Stream.setPlayingOffset_spec_witness :
    ((Stream.runOps (fun _ => 0) Stream.mkInit [Op.openMusic 1 44100]).setPlayingOffset 2).1.sourceTime = 2 ∧
    spawnCount ((Stream.runOps (fun _ => 0) Stream.mkInit [Op.openMusic 1 44100]).setPlayingOffset 2).2 = 0 ∧
    spawnCount ((Stream.runOps (fun _ => 0) Stream.mkInit
        [Op.openMusic 1 44100, Op.play, Op.workerStarted]).setPlayingOffset 2).2 = 1 := by
  refine ⟨?_, ?_, ?_⟩
  · exact (Stream.setPlayingOffset_spec (fun _ => 0) _
      ⟨[Op.openMusic 1 44100], rfl⟩ 2).1
  · exact ((Stream.setPlayingOffset_spec (fun _ => 0) _
      ⟨[Op.openMusic 1 44100], rfl⟩ 2).2.2.1 (by decide)).2.2
  · exact ((Stream.setPlayingOffset_spec (fun _ => 0) _
      ⟨[Op.openMusic 1 44100, Op.play, Op.workerStarted], rfl⟩ 2).2.2.2
        (by decide)).2.2.1

/-- Witness for C7: three channels map to no format; the initialized stream is
cleared and `play()` on it is a warning no-op. -/
theorem Stream.initializeStream_unsupported_witness :
    (Stream.mkInit.initializeStream (fun _ => 0) 3 22050).1.channelCount = 0 ∧
    (Stream.mkInit.initializeStream (fun _ => 0) 3 22050).1.format = 0 ∧
    (Stream.mkInit.initializeStream (fun _ => 0) 3 22050).2 = [Action.warnUnsupported] ∧
    Stream.mkInit.play = (Stream.mkInit, [Action.warnNotInit]) := by
  refine ⟨?_, ?_, ?_, ?_⟩
  · exact (Stream.initializeStream_unsupported (fun _ => 0) Stream.mkInit 3 22050 rfl).1
  · exact (Stream.initializeStream_unsupported (fun _ => 0) Stream.mkInit 3 22050 rfl).2.2.1
  · exact (Stream.initializeStream_unsupported (fun _ => 0) Stream.mkInit 3 22050 rfl).2.2.2.1
  · exact (Stream.initializeStream_unsupported (fun _ => 0) Stream.mkInit 3 22050 rfl).2.2.2.2
      Stream.mkInit rfl

/-- Witness for C8: a zero-bit-depth buffer on a fresh stream aborts the
processing loop with the counter untouched. -/
theorem Stream.zero_bits_aborts_witness :
    (Stream.mkInit.handleDequeuedBuffer { slot := 0, sizeBytes := 4, bits := 0 }).1.samplesProcessed =
      Stream.mkInit.samplesProcessed ∧
    (Stream.mkInit.handleDequeuedBuffer { slot := 0, sizeBytes := 4, bits := 0 }).1.isStreaming = false ∧
    Stream.mkInit.processDequeued
        [{ slot := 0, sizeBytes := 4, bits := 0 }, { slot := 1, sizeBytes := 4, bits := 16 }] =
      ({ Stream.mkInit with isStreaming := false }, 0) := by
  refine ⟨?_, ?_, ?_⟩
  · exact (Stream.zero_bits_aborts Stream.mkInit
      { slot := 0, sizeBytes := 4, bits := 0 } rfl rfl).2.1
  · exact (Stream.zero_bits_aborts Stream.mkInit
      { slot := 0, sizeBytes := 4, bits := 0 } rfl rfl).2.2.1
  · exact (Stream.zero_bits_aborts Stream.mkInit
      { slot := 0, sizeBytes := 4, bits := 0 } rfl rfl).2.2.2.2
      [{ slot := 1, sizeBytes := 4, bits := 16 }]

/-- Witness for C10: a five-byte open stream at offset 2: seek to 3 and a
seven-byte read from offset 2. -/
theorem MemoryInputStream.read_seek_spec_witness :
    ({ dataPresent := true, size := 5, offset := 2 } : MemoryInputStream).seek 3 =
      (min 3 ((5 : Nat) : Int),
       { ({ dataPresent := true, size := 5, offset := 2 } : MemoryInputStream) with
           offset := min 3 ((5 : Nat) : Int) }) ∧
    ({ dataPresent := true, size := 5, offset := 2 } : MemoryInputStream).read 7 =
      (min 7 (((5 : Nat) : Int) - 2),
       { ({ dataPresent := true, size := 5, offset := 2 } : MemoryInputStream) with
           offset := 2 + min 7 (((5 : Nat) : Int) - 2) }) ∧
    ({ dataPresent := true, size := 5, offset := 2 } : MemoryInputStream).getSize =
      ((5 : Nat) : Int) := by
  refine ⟨?_, ?_, ?_⟩
  · exact (MemoryInputStream.read_seek_spec
      { dataPresent := true, size := 5, offset := 2 } 5 3 7 (by decide)
      rfl (by decide) (by decide) (by decide) (by decide) (by decide)).2.2.2.2.2.1
  · exact (MemoryInputStream.read_seek_spec
      { dataPresent := true, size := 5, offset := 2 } 5 3 7 (by decide)
      rfl (by decide) (by decide) (by decide) (by decide) (by decide)).2.2.2.2.2.2.1
  · exact (MemoryInputStream.read_seek_spec
      { dataPresent := true, size := 5, offset := 2 } 5 3 7 (by decide)
      rfl (by decide) (by decide) (by decide) (by decide) (by decide)).2.2.2.2.2.2.2.2.2


end Emyl
